import Mathlib

/-!
Verification of the Ard eagle-density evaluation component and logging
utilities against their specification.

The embedding follows `src/ard/eco/eagle_density.py` and
`src/ard/utils/logging.py`.  Real-valued densities and coordinates are
modelled by rationals; the fitted `RectBivariateSpline` object is opaque to
the component code, so it is modelled as a structure carrying the scalar
field it represents together with the two analytic partial-derivative
fields that `ev(..., dx=1, dy=0)` and `ev(..., dx=0, dy=1)` evaluate.
-/

namespace Ard

/--
The fitted interpolant produced in `EagleDensityFunction.setup` by
`RectBivariateSpline(pres["x"], pres["y"], pres["normalized_presence_density"])`.
The component treats the fitted object as an opaque immutable collaborator,
only calling it pointwise (`__call__`, dx = dy = 0) and through `ev` with
one derivative order set to 1; those three scalar fields are the whole
interface the component uses.
-/
structure Interpolant where
  ev : ℚ → ℚ → ℚ
  ev_dx : ℚ → ℚ → ℚ
  ev_dy : ℚ → ℚ → ℚ

/--
`EagleDensityFunction.compute`:
`outputs["eagle_normalized_density"] = [self.eagle_density_function(xt, yt)
for xt, yt in zip(x_turbines, y_turbines)]`.
Python `zip` pairs the two lists elementwise and truncates to the shorter:
`List.zip` has exactly this semantics.
-/
def compute (f : Interpolant) (x_turbines y_turbines : List ℚ) : List ℚ :=
  (x_turbines.zip y_turbines).map (fun p => f.ev p.1 p.2)

/--
`np.diag(v)` for a 1-D array `v` of length `n`: the `n × n` matrix with `v`
on the diagonal and zeros elsewhere, as a row list.
-/
def np_diag (v : List ℚ) : List (List ℚ) :=
  (List.range v.length).map (fun i =>
    (List.range v.length).map (fun j => if i = j then v.getD i 0 else 0))

/--
`EagleDensityFunction.compute_partials`: evaluates
`self.eagle_density_function.ev(x_turbines, y_turbines, dx=1, dy=0)` and
`... dx=0, dy=1` (elementwise over the two coordinate arrays, which is what
the scipy broadcast does for equal-length 1-D arrays) and stores
`np.diag(dfdx)` and `np.diag(dfdy)` as the two Jacobian blocks.
-/
def compute_partials (f : Interpolant) (x_turbines y_turbines : List ℚ) :
    List (List ℚ) × List (List ℚ) :=
  let dfdx := (x_turbines.zip y_turbines).map (fun p => f.ev_dx p.1 p.2)
  let dfdy := (x_turbines.zip y_turbines).map (fun p => f.ev_dy p.1 p.2)
  (np_diag dfdx, np_diag dfdy)

/-- Matrix entry accessor for the row-list representation. -/
def entry (M : List (List ℚ)) (i j : ℕ) : ℚ :=
  (M.getD i []).getD j 0

/-- A concrete interpolant for the linear field f(x, y) = x + y. -/
def linearField : Interpolant :=
  ⟨fun a b => a + b, fun _ _ => 1, fun _ _ => 1⟩

/-- Elementwise map over zipped lists, indexed access. -/
lemma zipmap_getElem? (g : ℚ → ℚ → ℚ) :
    ∀ (x y : List ℚ) (i : ℕ), i < x.length → i < y.length →
      ((x.zip y).map (fun p => g p.1 p.2))[i]? = some (g (x.getD i 0) (y.getD i 0)) := by
  intro x
  induction x with
  | nil => intro y i hx _; simp at hx
  | cons a x ih =>
    intro y i hx hy
    cases y with
    | nil => simp at hy
    | cons b y =>
      cases i with
      | zero => simp [List.getD]
      | succ n =>
        have hx' : n < x.length := by simpa using hx
        have hy' : n < y.length := by simpa using hy
        simpa [List.getD] using ih y n hx' hy'

/-- Length of the elementwise map over zipped lists. -/
lemma zipmap_length (g : ℚ → ℚ → ℚ) (x y : List ℚ) :
    ((x.zip y).map (fun p => g p.1 p.2)).length = min x.length y.length := by
  simp [List.length_zip]

/--
C1: for every query batch of equal-length coordinate arrays of length N,
`compute` returns a density array of length exactly N whose i-th entry is
the fitted interpolant evaluated at the single point (x[i], y[i]).
-/
theorem compute_density_pointwise (f : Interpolant) (x y : List ℚ) (N : ℕ)
    (hx : x.length = N) (hy : y.length = N) :
    (compute f x y).length = N ∧
    ∀ i, i < N → (compute f x y)[i]? = some (f.ev (x.getD i 0) (y.getD i 0)) := by
  constructor
  · simp [compute, List.length_zip, hx, hy]
  · intro i hi
    exact zipmap_getElem? f.ev x y i (by omega) (by omega)

/-- Witness for C1 at the batch x = [0, 1, 2], y = [3, 4, 5]. -/
theorem compute_density_pointwise_witness :
    (compute linearField [0, 1, 2] [3, 4, 5]).length = 3 ∧
    ∀ i, i < 3 → (compute linearField [0, 1, 2] [3, 4, 5])[i]? =
      some (linearField.ev (([0, 1, 2] : List ℚ).getD i 0)
        (([3, 4, 5] : List ℚ).getD i 0)) :=
  compute_density_pointwise linearField [0, 1, 2] [3, 4, 5] 3 rfl rfl

/-- `np.diag` of a length-n vector has n rows. -/
lemma np_diag_length (v : List ℚ) : (np_diag v).length = v.length := by
  simp [np_diag]

/-- Each row of `np.diag` within bounds has length n. -/
lemma np_diag_row_length (v : List ℚ) (i : ℕ) (h : i < v.length) :
    ((np_diag v).getD i []).length = v.length := by
  simp [np_diag, List.getD, List.getElem?_map, List.getElem?_range, h]

/-- The (i, j) entry of `np.diag v` is `v[i]` on the diagonal, 0 elsewhere. -/
lemma np_diag_entry (v : List ℚ) (i j : ℕ) (hi : i < v.length) (hj : j < v.length) :
    entry (np_diag v) i j = if i = j then v.getD i 0 else 0 := by
  simp [entry, np_diag, List.getD, List.getElem?_map, List.getElem?_range, hi, hj]

/--
C2: for every query batch of length N, both Jacobian blocks produced by
`compute_partials` are N × N, zero off the diagonal, and the i-th diagonal
entry of the x-block (resp. y-block) is the analytic partial derivative of
the interpolant with respect to x (resp. y) evaluated at (x[i], y[i]).
-/
theorem compute_partials_diagonal (f : Interpolant) (x y : List ℚ) (N : ℕ)
    (hx : x.length = N) (hy : y.length = N) :
    (compute_partials f x y).1.length = N ∧
    (compute_partials f x y).2.length = N ∧
    (∀ i, i < N → ((compute_partials f x y).1.getD i []).length = N ∧
                  ((compute_partials f x y).2.getD i []).length = N) ∧
    (∀ i j, i < N → j < N → i ≠ j →
      entry (compute_partials f x y).1 i j = 0 ∧
      entry (compute_partials f x y).2 i j = 0) ∧
    (∀ i, i < N →
      entry (compute_partials f x y).1 i i = f.ev_dx (x.getD i 0) (y.getD i 0) ∧
      entry (compute_partials f x y).2 i i = f.ev_dy (x.getD i 0) (y.getD i 0)) := by
  have hlx : ((x.zip y).map (fun p => f.ev_dx p.1 p.2)).length = N := by
    rw [zipmap_length]; omega
  have hly : ((x.zip y).map (fun p => f.ev_dy p.1 p.2)).length = N := by
    rw [zipmap_length]; omega
  refine ⟨?_, ?_, ?_, ?_, ?_⟩
  · simpa [compute_partials, np_diag_length] using hlx
  · simpa [compute_partials, np_diag_length] using hly
  · intro i hi
    constructor
    · rw [show (compute_partials f x y).1 =
        np_diag ((x.zip y).map (fun p => f.ev_dx p.1 p.2)) from rfl,
        np_diag_row_length _ i (by omega)]
      exact hlx
    · rw [show (compute_partials f x y).2 =
        np_diag ((x.zip y).map (fun p => f.ev_dy p.1 p.2)) from rfl,
        np_diag_row_length _ i (by omega)]
      exact hly
  · intro i j hi hj hne
    constructor
    · rw [show (compute_partials f x y).1 =
        np_diag ((x.zip y).map (fun p => f.ev_dx p.1 p.2)) from rfl,
        np_diag_entry _ i j (by omega) (by omega)]
      simp [hne]
    · rw [show (compute_partials f x y).2 =
        np_diag ((x.zip y).map (fun p => f.ev_dy p.1 p.2)) from rfl,
        np_diag_entry _ i j (by omega) (by omega)]
      simp [hne]
  · intro i hi
    have hgx := zipmap_getElem? f.ev_dx x y i (by omega) (by omega)
    have hgy := zipmap_getElem? f.ev_dy x y i (by omega) (by omega)
    constructor
    · rw [show (compute_partials f x y).1 =
        np_diag ((x.zip y).map (fun p => f.ev_dx p.1 p.2)) from rfl,
        np_diag_entry _ i i (by omega) (by omega)]
      simp [List.getD, hgx]
    · rw [show (compute_partials f x y).2 =
        np_diag ((x.zip y).map (fun p => f.ev_dy p.1 p.2)) from rfl,
        np_diag_entry _ i i (by omega) (by omega)]
      simp [List.getD, hgy]

/-- Witness for C2 at the batch x = [0, 1], y = [3, 4]. -/
theorem compute_partials_diagonal_witness :
    (compute_partials linearField [0, 1] [3, 4]).1.length = 2 ∧
    (compute_partials linearField [0, 1] [3, 4]).2.length = 2 ∧
    (∀ i, i < 2 → ((compute_partials linearField [0, 1] [3, 4]).1.getD i []).length = 2 ∧
                  ((compute_partials linearField [0, 1] [3, 4]).2.getD i []).length = 2) ∧
    (∀ i j, i < 2 → j < 2 → i ≠ j →
      entry (compute_partials linearField [0, 1] [3, 4]).1 i j = 0 ∧
      entry (compute_partials linearField [0, 1] [3, 4]).2 i j = 0) ∧
    (∀ i, i < 2 →
      entry (compute_partials linearField [0, 1] [3, 4]).1 i i =
        linearField.ev_dx (([0, 1] : List ℚ).getD i 0) (([3, 4] : List ℚ).getD i 0) ∧
      entry (compute_partials linearField [0, 1] [3, 4]).2 i i =
        linearField.ev_dy (([0, 1] : List ℚ).getD i 0) (([3, 4] : List ℚ).getD i 0)) :=
  compute_partials_diagonal linearField [0, 1] [3, 4] 2 rfl rfl

/--
C3 counterexample: with xs = [0, 1, 2] and ys = [3, 4] of mismatched
lengths, `compute` raises nothing and returns the density array [3, 5]:
the list comprehension over `zip` silently truncates to the shorter input
instead of failing, so an output is produced.
-/
theorem compute_mismatch_counterexample :
    ([0, 1, 2] : List ℚ).length ≠ ([3, 4] : List ℚ).length ∧
    compute linearField [0, 1, 2] [3, 4] = [3, 5] := by
  exact ⟨by decide, by norm_num [compute, linearField]⟩

/--
C3 amended: `compute` performs no length validation; for mismatched
coordinate arrays it returns, without any error, a density array of length
min(len xs, len ys), the pairing being truncated to the shorter array.
-/
theorem compute_truncates_on_mismatch (f : Interpolant) (xs ys : List ℚ) :
    (compute f xs ys).length = min xs.length ys.length ∧
    ∀ i, i < min xs.length ys.length →
      (compute f xs ys)[i]? = some (f.ev (xs.getD i 0) (ys.getD i 0)) := by
  constructor
  · exact zipmap_length f.ev xs ys
  · intro i hi
    exact zipmap_getElem? f.ev xs ys i (by omega) (by omega)

/-- Witness for the amended C3 at the mismatched batch [0, 1, 2] / [3, 4]. -/
theorem compute_truncates_on_mismatch_witness :
    (compute linearField [0, 1, 2] [3, 4]).length =
      min ([0, 1, 2] : List ℚ).length ([3, 4] : List ℚ).length ∧
    ∀ i, i < min ([0, 1, 2] : List ℚ).length ([3, 4] : List ℚ).length →
      (compute linearField [0, 1, 2] [3, 4])[i]? =
        some (linearField.ev (([0, 1, 2] : List ℚ).getD i 0)
          (([3, 4] : List ℚ).getD i 0)) :=
  compute_truncates_on_mismatch linearField [0, 1, 2] [3, 4]

/--
C7: noninterference across query points — two equal-length batches that
agree at index i produce the same density at index i, however much they
differ at every other index.
-/
theorem compute_noninterference (f : Interpolant) (x y x2 y2 : List ℚ) (N i : ℕ)
    (hx : x.length = N) (hy : y.length = N)
    (hx2 : x2.length = N) (hy2 : y2.length = N) (hi : i < N)
    (hxi : x.getD i 0 = x2.getD i 0) (hyi : y.getD i 0 = y2.getD i 0) :
    (compute f x y)[i]? = (compute f x2 y2)[i]? := by
  have h1 := zipmap_getElem? f.ev x y i (by omega) (by omega)
  have h2 := zipmap_getElem? f.ev x2 y2 i (by omega) (by omega)
  rw [show compute f x y = (x.zip y).map (fun p => f.ev p.1 p.2) from rfl, h1]
  rw [show compute f x2 y2 = (x2.zip y2).map (fun p => f.ev p.1 p.2) from rfl, h2]
  rw [hxi, hyi]

/--
Witness for C7: batches [0, 1, 2]/[3, 4, 5] and [0, 9, 9]/[3, 9, 9] agree
only at index 0 and give the same density there.
-/
theorem compute_noninterference_witness :
    (compute linearField [0, 1, 2] [3, 4, 5])[0]? =
      (compute linearField [0, 9, 9] [3, 9, 9])[0]? :=
  compute_noninterference linearField [0, 1, 2] [3, 4, 5] [0, 9, 9] [3, 9, 9] 3 0
    rfl rfl rfl rfl (by decide) (by decide) (by decide)

/--
The component state the evaluation stage can read: the fitted interpolant
stored by `setup` as `self.eagle_density_function`, plus the configured
turbine count.  `compute` and `compute_partials` read
`self.eagle_density_function` and assign only into the framework-owned
`outputs` / `partials` dictionaries, never into `self`; explicit state
passing makes that visible.
-/
structure EagleDensityFunction where
  eagle_density_function : Interpolant
  N_turbines : ℕ

/-- `compute` as a state-passing operation on the component. -/
def compute_run (s : EagleDensityFunction) (x y : List ℚ) :
    List ℚ × EagleDensityFunction :=
  (compute s.eagle_density_function x y, s)

/-- `compute_partials` as a state-passing operation on the component. -/
def compute_partials_run (s : EagleDensityFunction) (x y : List ℚ) :
    (List (List ℚ) × List (List ℚ)) × EagleDensityFunction :=
  (compute_partials s.eagle_density_function x y, s)

/--
C8: the evaluation stage is stateless — neither `compute` nor
`compute_partials` changes the component state, and repeated or
interleaved calls on the same query batch return identical density and
Jacobian values.
-/
theorem evaluation_stage_stateless (s : EagleDensityFunction) (x y : List ℚ) :
    (compute_run s x y).2 = s ∧
    (compute_partials_run s x y).2 = s ∧
    (compute_run ((compute_partials_run ((compute_run s x y).2) x y).2) x y).1
      = (compute_run s x y).1 ∧
    (compute_partials_run ((compute_run ((compute_partials_run s x y).2) x y).2) x y).1
      = (compute_partials_run s x y).1 :=
  ⟨rfl, rfl, rfl, rfl⟩

end Ard

namespace ArdLogging

/--
The model object reachable from a component.  `iter_count` is `some v`
exactly when the Python object has an `iter_count` attribute with value
`v`.
-/
structure Model where
  iter_count : Option ℕ
deriving DecidableEq

/--
The `_problem_meta` dictionary of a component.  `model_ref` is `some r`
exactly when the dictionary has a `"model_ref"` key; calling the weakref
`r` yields `some m` while the model is alive and Python `None` (here
`none`) once it is dead.  `reports_dir` is the `"reports_dir"` path as a
list of path components.
-/
structure ProblemMeta where
  model_ref : Option (Option Model)
  reports_dir : List String
deriving DecidableEq

/--
An OpenMDAO component as seen by the logging utilities.  `problem_meta` is
`some pm` exactly when the object has a `_problem_meta` attribute;
`pathname` is the component path already split on "."; `rank` is
`self._comm.rank`.
-/
structure Component where
  problem_meta : Option ProblemMeta
  pathname : List String
  rank : ℕ
deriving DecidableEq

/--
`extract_iter`: returns `component._problem_meta["model_ref"]().iter_count`
when every step of that chain is available, and `None` otherwise.  A dead
weakref dereferences to Python `None`, which has no `iter_count`
attribute, so the `hasattr` guard sends it to `None` as well.
-/
def extract_iter (component : Component) : Option ℕ :=
  match component.problem_meta with
  | none => none
  | some problem_meta =>
    match problem_meta.model_ref with
    | none => none
    | some ref =>
      match ref with
      | none => none
      | some model =>
        match model.iter_count with
        | none => none
        | some iter_count => some iter_count

/-- Python exceptions relevant to the logging utilities. -/
inductive PyErr where
  | fileExistsError : PyErr
  | attributeError : PyErr
  | valueError : PyErr
deriving DecidableEq

/-- A directory path as a list of path components. -/
abbrev DirPath := List String

/-- Association lookup over a directory table. -/
def lookupDir : List (DirPath × List String) → DirPath → Option (List String)
  | [], _ => none
  | e :: rest, p => if e.1 = p then some e.2 else lookupDir rest p

/--
An idealized filesystem fragment: the directories that exist, each with
the names of the files it holds.
-/
structure FS where
  dirs : List (DirPath × List String)
deriving DecidableEq

/-- Whether directory `p` exists, and with which files. -/
def FS.lookup (fs : FS) (p : DirPath) : Option (List String) :=
  lookupDir fs.dirs p

/--
`Path.mkdir(parents=True, exist_ok=...)` on the leaf directory: raises
`FileExistsError` when the directory already exists and `exist_ok` is
false; otherwise the directory exists afterwards, created empty when it
was absent.
-/
def mkdir (fs : FS) (p : DirPath) (exist_ok : Bool) : Except PyErr FS :=
  match lookupDir fs.dirs p with
  | some _ => if exist_ok then .ok fs else .error .fileExistsError
  | none => .ok ⟨(p, []) :: fs.dirs⟩

/-- `shutil.rmtree(path, ignore_errors=True)`: the directory and all its
contents are removed. -/
def rmtree (fs : FS) (p : DirPath) : FS :=
  ⟨fs.dirs.filter (fun e => decide (e.1 ≠ p))⟩

/--
The directory-refresh block of `name_create_log`: try
`mkdir(parents=True, exist_ok=False)`; on `FileExistsError`, `rmtree` the
directory and `mkdir(parents=True, exist_ok=True)`.  The inner error
branch is unreachable because `mkdir` with `exist_ok` never fails.
-/
def refresh_dir (fs : FS) (p : DirPath) : FS :=
  match mkdir fs p false with
  | .ok fs1 => fs1
  | .error _ =>
    let fs1 := rmtree fs p
    match mkdir fs1 p true with
    | .ok fs2 => fs2
    | .error _ => fs1

/-- Zero-pad a natural number to width 4, as in `f"iter_{iter:04d}"`. -/
def pad4 (n : ℕ) : String :=
  let s := toString n
  String.mk (List.replicate (4 - s.length) '0') ++ s

/-- Zero-pad a natural number to width 3, as in `f"...rank{rank:03d}"`. -/
def pad3 (n : ℕ) : String :=
  let s := toString n
  String.mk (List.replicate (3 - s.length) '0') ++ s

/--
The log directory `name_create_log` builds for a component:
`<parent of reports_dir>/logs[/iter_NNNN]/<component path pieces>`, the
iteration segment present exactly when `extract_iter` finds one.
-/
def log_dir (component : Component) (pm : ProblemMeta) : DirPath :=
  pm.reports_dir.dropLast ++
    (["logs"] ++
      (match extract_iter component with
       | some i => ["iter_" ++ pad4 i]
       | none => [])) ++
    component.pathname

/--
`name_create_log`: builds the stdout/stderr logfile paths under the
component log directory, refreshes that directory, and returns the two
paths with the updated filesystem.  Reading `component._problem_meta` on a
component without that attribute raises `AttributeError`.
-/
def name_create_log (component : Component) (fs : FS) :
    Except PyErr ((DirPath × DirPath) × FS) :=
  match component.problem_meta with
  | none => .error .attributeError
  | some pm =>
    let dir := log_dir component pm
    let path_logfile_stdout := dir ++ ["stdout_rank" ++ pad3 component.rank ++ ".txt"]
    let path_logfile_stderr := dir ++ ["stderr_rank" ++ pad3 component.rank ++ ".txt"]
    .ok ((path_logfile_stdout, path_logfile_stderr), refresh_dir fs dir)

/-- Where an output stream currently goes: the process console or a file. -/
inductive StreamTarget where
  | console : StreamTarget
  | file : DirPath → StreamTarget
deriving DecidableEq

/-- The two redirected process streams. -/
structure Streams where
  stdout : StreamTarget
  stderr : StreamTarget
deriving DecidableEq

/-- The world the logging utilities act on: filesystem plus streams. -/
structure World where
  fs : FS
  streams : Streams
deriving DecidableEq

/-- `open(path, "a")`: ensures the file exists in its parent directory. -/
def touch (fs : FS) (path : DirPath) : FS :=
  ⟨fs.dirs.map (fun e =>
    if e.1 = path.dropLast then
      (e.1, if path.getLastD "" ∈ e.2 then e.2 else path.getLastD "" :: e.2)
    else e)⟩

/--
The nested `with redirect_stdout(...), redirect_stderr(...)` block: each
context manager saves the current stream target, installs the file target,
runs the body, and restores the saved target on exit — on the normal path
and on the exception path alike, because `__exit__` runs in both cases.
-/
def with_redirect {α : Type} (pout perr : DirPath)
    (body : World → Except PyErr α × World) (w : World) :
    Except PyErr α × World :=
  let saved := w.streams
  let r := body { w with streams := ⟨.file pout, .file perr⟩ }
  (r.1, { r.2 with streams := saved })

/--
The `wrapper` produced by `component_log_capture`: get the log file paths
from `name_create_log` (which refreshes the log directory), open both
files in append mode, redirect stdout and stderr into them, run the
wrapped compute function, and re-raise any exception
(`except Exception: raise`).
-/
def component_log_capture {α : Type} (component : Component)
    (compute_func : World → Except PyErr α × World) (w : World) :
    Except PyErr α × World :=
  match name_create_log component w.fs with
  | .error e => (.error e, w)
  | .ok ((path_stdout_log, path_stderr_log), fs1) =>
    let w1 : World := ⟨touch (touch fs1 path_stdout_log) path_stderr_log, w.streams⟩
    with_redirect path_stdout_log path_stderr_log compute_func w1

/-- Removing every table entry for `p` makes `p` absent. -/
lemma lookupDir_filter_ne (l : List (DirPath × List String)) (p : DirPath) :
    lookupDir (l.filter (fun e => !decide (e.1 = p))) p = none := by
  induction l with
  | nil => rfl
  | cons e rest ih =>
    by_cases h : e.1 = p
    · simpa [List.filter, h] using ih
    · simpa [List.filter, h, lookupDir] using ih

/-- After `refresh_dir`, the directory exists and is empty. -/
lemma refresh_dir_fresh (fs : FS) (p : DirPath) :
    FS.lookup (refresh_dir fs p) p = some [] := by
  unfold refresh_dir mkdir
  cases hl : lookupDir fs.dirs p with
  | none => simp [FS.lookup, lookupDir, hl]
  | some files =>
    have hf : lookupDir (List.filter (fun e => !decide (e.1 = p)) fs.dirs) p = none :=
      lookupDir_filter_ne fs.dirs p
    simp [FS.lookup, lookupDir, hl, rmtree, hf]

/-- A problem-meta record with a live model at iteration 7. -/
def pmEx : ProblemMeta := ⟨some (some ⟨some 7⟩), ["proj", "reports"]⟩

/-- A component whose log directory is `proj/logs/iter_0007/comp`. -/
def compEx : Component := ⟨some pmEx, ["comp"], 0⟩

/-- A wrapped computation that raises `ValueError` without touching the
world. -/
def raisingBody : World → Except PyErr Unit × World :=
  fun w => (.error .valueError, w)

/-- A world where the log directory already exists with stale content and
both streams go to the console. -/
def wEx : World :=
  ⟨⟨[(["proj", "logs", "iter_0007", "comp"], ["stale.txt"])]⟩, ⟨.console, .console⟩⟩

/--
C9: on every use, the output-capture utility recreates the component log
directory fresh — prior contents of an existing directory are removed by
the refresh block before any redirection — and restores the original
stdout/stderr targets after the wrapped computation, whether it returns
normally or raises.
-/
theorem log_capture_fresh_and_restores {α : Type} (component : Component)
    (pm : ProblemMeta) (h : component.problem_meta = some pm)
    (compute_func : World → Except PyErr α × World) (w : World) :
    FS.lookup (refresh_dir w.fs (log_dir component pm)) (log_dir component pm)
      = some [] ∧
    (component_log_capture component compute_func w).2.streams = w.streams := by
  refine ⟨refresh_dir_fresh w.fs _, ?_⟩
  simp [component_log_capture, name_create_log, h, with_redirect]

/--
Witness for C9: a component at iteration 7 whose log directory already
holds a stale file, wrapped around a computation that raises — the
directory comes back empty and the console streams are restored.
-/
theorem log_capture_fresh_and_restores_witness :
    FS.lookup (refresh_dir wEx.fs (log_dir compEx pmEx)) (log_dir compEx pmEx)
      = some [] ∧
    (component_log_capture compEx raisingBody wEx).2.streams = wEx.streams :=
  log_capture_fresh_and_restores compEx pmEx rfl raisingBody wEx

/--
C10: `extract_iter` is total over its documented failure modes — it
returns `None` when the component lacks `_problem_meta`, when the metadata
lacks a `"model_ref"` key, and when the dereferenced model (including a
dead weakref, which dereferences to Python `None`) lacks an `iter_count`
attribute; otherwise it returns the model `iter_count`.
-/
theorem extract_iter_total (c : Component) :
    (c.problem_meta = none → extract_iter c = none) ∧
    (∀ pm, c.problem_meta = some pm → pm.model_ref = none →
      extract_iter c = none) ∧
    (∀ pm, c.problem_meta = some pm → pm.model_ref = some none →
      extract_iter c = none) ∧
    (∀ pm m, c.problem_meta = some pm → pm.model_ref = some (some m) →
      m.iter_count = none → extract_iter c = none) ∧
    (∀ pm m v, c.problem_meta = some pm → pm.model_ref = some (some m) →
      m.iter_count = some v → extract_iter c = some v) := by
  refine ⟨?_, ?_, ?_, ?_, ?_⟩ <;> intros <;> simp_all [extract_iter]

/-- Witness for C10: the full chain is available and yields iteration 7. -/
theorem extract_iter_total_witness :
    extract_iter compEx = some 7 :=
  (extract_iter_total compEx).2.2.2.2 pmEx ⟨some 7⟩ 7 rfl rfl rfl

end ArdLogging
